import Mathlib

/-!
# Verification of the keeper attestation server

A shallow embedding of the `keeper` server (`src/server/src/{api,checksum,validate,lib}.rs`)
together with proofs about its checksum pipeline, validators, pagination loop and
request handler.

Rust strings are modelled as Lean `String`; byte strings as `List Nat` (each entry < 256);
`u32`/`u64` values as `Nat` (no arithmetic that could overflow is performed on them,
except for the one place where the code converts a `u64` to an `f64`, which is modelled
exactly as round-to-nearest-even on integers).
-/

set_option maxRecDepth 100000
set_option maxHeartbeats 1600000

/-! ## Lexicographic order on lists of naturals

Rust compares `String`s byte-wise on their UTF-8 representation; this coincides with
lexicographic comparison of the sequences of Unicode code points.  The JSON
Canonicalization Scheme (RFC 8785) compares object keys by their UTF-16 code unit
sequences.  Both are instances of lexicographic comparison on `List Nat`.
-/

def natListLt : List Nat → List Nat → Bool
  | _, [] => false
  | [], _ :: _ => true
  | a :: as, b :: bs => decide (a < b) || (decide (a = b) && natListLt as bs)

/-- `x ≤ y` in the lexicographic order, expressed as `¬ (y < x)`. -/
def natListLe (x y : List Nat) : Bool := !(natListLt y x)

theorem natListLt_irrefl (x : List Nat) : natListLt x x = false := by
  induction x with
  | nil => rfl
  | cons a as ih => simp [natListLt, ih]

theorem natListLt_asymm (x y : List Nat) (h : natListLt x y = true) :
    natListLt y x = false := by
  induction x generalizing y with
  | nil =>
    cases y with
    | nil => simp [natListLt] at h
    | cons b bs => rfl
  | cons a as ih =>
    cases y with
    | nil => simp [natListLt] at h
    | cons b bs =>
      simp only [natListLt, Bool.or_eq_true, Bool.and_eq_true, decide_eq_true_eq] at h
      rcases h with h | ⟨hab, h⟩
      · simp [natListLt, show ¬ b < a from by omega, show ¬ b = a from by omega]
      · subst hab
        simp [natListLt, ih bs h]

theorem natListLt_trans (x y z : List Nat) (hxy : natListLt x y = true)
    (hyz : natListLt y z = true) : natListLt x z = true := by
  induction x generalizing y z with
  | nil =>
    cases z with
    | nil => cases y <;> simp [natListLt] at hxy hyz
    | cons c cs => rfl
  | cons a as ih =>
    cases y with
    | nil => simp [natListLt] at hxy
    | cons b bs =>
      cases z with
      | nil => simp [natListLt] at hyz
      | cons c cs =>
        simp only [natListLt, Bool.or_eq_true, Bool.and_eq_true, decide_eq_true_eq] at hxy hyz ⊢
        rcases hxy with h1 | ⟨hab, h1⟩ <;> rcases hyz with h2 | ⟨hbc, h2⟩
        · exact Or.inl (by omega)
        · exact Or.inl (by omega)
        · exact Or.inl (by omega)
        · exact Or.inr ⟨by omega, ih bs cs h1 h2⟩

theorem natListLt_connex (x y : List Nat) (hxy : natListLt x y = false)
    (hyx : natListLt y x = false) : x = y := by
  induction x generalizing y with
  | nil => cases y with
    | nil => rfl
    | cons b bs => simp [natListLt] at hxy
  | cons a as ih =>
    cases y with
    | nil => simp [natListLt] at hyx
    | cons b bs =>
      simp only [natListLt, Bool.or_eq_false_iff, Bool.and_eq_false_iff,
        decide_eq_false_iff_not] at hxy hyx
      have hab : a = b := by
        rcases hxy.2 with h | h <;> rcases hyx.2 with h2 | h2 <;> omega
      subst hab
      have : as = bs := by
        apply ih
        · rcases hxy.2 with h | h
          · omega
          · exact h
        · rcases hyx.2 with h | h
          · omega
          · exact h
      rw [this]

theorem natListLe_total (x y : List Nat) : natListLe x y = true ∨ natListLe y x = true := by
  simp only [natListLe, Bool.not_eq_true']
  by_cases h : natListLt y x = true
  · exact Or.inr (natListLt_asymm y x h)
  · rw [Bool.not_eq_true] at h
    exact Or.inl h

theorem natListLe_trans (x y z : List Nat) (hxy : natListLe x y = true)
    (hyz : natListLe y z = true) : natListLe x z = true := by
  simp only [natListLe, Bool.not_eq_true'] at hxy hyz ⊢
  by_contra hc
  rw [Bool.not_eq_false] at hc
  by_cases h1 : natListLt x y = true
  · by_cases h2 : natListLt y z = true
    · have h3 := natListLt_trans x y z h1 h2
      rw [natListLt_asymm x z h3] at hc
      exact absurd hc (by simp)
    · rw [Bool.not_eq_true] at h2
      have heq := natListLt_connex y z h2 hyz
      subst heq
      rw [hxy] at hc
      exact absurd hc (by simp)
  · rw [Bool.not_eq_true] at h1
    have heq := natListLt_connex x y h1 hxy
    subst heq
    rw [hyz] at hc
    exact absurd hc (by simp)

/-- Stable insertion: insert `a` before the first element `b` with `le a b`. -/
def orderedInsertB (le : α → α → Bool) (a : α) : List α → List α
  | [] => [a]
  | b :: l => if le a b then a :: b :: l else b :: orderedInsertB le a l

/-- A stable sort; models Rust's (stable) `slice::sort_by_key`. -/
def insertionSortB (le : α → α → Bool) : List α → List α
  | [] => []
  | a :: l => orderedInsertB le a (insertionSortB le l)

theorem perm_orderedInsertB (le : α → α → Bool) (a : α) (l : List α) :
    (orderedInsertB le a l).Perm (a :: l) := by
  induction l with
  | nil => exact List.Perm.refl _
  | cons b bs ih =>
    by_cases h : le a b = true
    · simp [orderedInsertB, h]
    · simp only [orderedInsertB, h]
      rw [if_neg (by simp [h])]
      exact ((ih.cons b).trans (List.Perm.swap a b bs))

theorem perm_insertionSortB (le : α → α → Bool) (l : List α) :
    (insertionSortB le l).Perm l := by
  induction l with
  | nil => exact List.Perm.refl _
  | cons a as ih =>
    exact (perm_orderedInsertB le a (insertionSortB le as)).trans (ih.cons a)

theorem mem_orderedInsertB (le : α → α → Bool) (a : α) (l : List α) (x : α)
    (hx : x ∈ orderedInsertB le a l) : x = a ∨ x ∈ l :=
  by simpa using (perm_orderedInsertB le a l).mem_iff.mp hx

theorem pairwise_orderedInsertB (le : α → α → Bool)
    (htot : ∀ x y, le x y = true ∨ le y x = true)
    (htr : ∀ x y z, le x y = true → le y z = true → le x z = true)
    (a : α) (l : List α) (h : l.Pairwise (fun x y => le x y = true)) :
    (orderedInsertB le a l).Pairwise (fun x y => le x y = true) := by
  induction l with
  | nil => simp [orderedInsertB]
  | cons b bs ih =>
    rcases List.pairwise_cons.mp h with ⟨hb, hbs⟩
    by_cases hab : le a b = true
    · rw [orderedInsertB, if_pos hab]
      refine List.pairwise_cons.mpr ⟨?_, h⟩
      intro x hx
      rcases List.mem_cons.mp hx with rfl | hx
      · exact hab
      · exact htr a b x hab (hb x hx)
    · rw [orderedInsertB, if_neg (by simp [hab])]
      refine List.pairwise_cons.mpr ⟨?_, ih hbs⟩
      intro x hx
      rcases mem_orderedInsertB le a bs x hx with rfl | hx
      · rcases htot x b with h' | h'
        · exact absurd h' (by simp [hab])
        · exact h'
      · exact hb x hx

theorem pairwise_insertionSortB (le : α → α → Bool)
    (htot : ∀ x y, le x y = true ∨ le y x = true)
    (htr : ∀ x y z, le x y = true → le y z = true → le x z = true)
    (l : List α) : (insertionSortB le l).Pairwise (fun x y => le x y = true) := by
  induction l with
  | nil => simp [insertionSortB]
  | cons a as ih => exact pairwise_orderedInsertB le htot htr a _ ih

/-- Sorting two permuted lists whose sort keys are pairwise distinct yields the same
list: the stable sort by a lexicographic key is a function of the multiset of elements. -/
theorem insertionSortB_eq_of_perm {α : Type} (key : α → List Nat) (l₁ l₂ : List α)
    (hperm : l₁.Perm l₂) (hd : l₁.Pairwise (fun a b => key a ≠ key b)) :
    insertionSortB (fun a b => natListLe (key a) (key b)) l₁
      = insertionSortB (fun a b => natListLe (key a) (key b)) l₂ := by
  set le := fun a b => natListLe (key a) (key b) with hle
  have htot : ∀ x y, le x y = true ∨ le y x = true := fun x y => natListLe_total _ _
  have htr : ∀ x y z, le x y = true → le y z = true → le x z = true :=
    fun x y z => natListLe_trans _ _ _
  have hs₁ := pairwise_insertionSortB le htot htr l₁
  have hs₂ := pairwise_insertionSortB le htot htr l₂
  have hp₁ := perm_insertionSortB le l₁
  have hp₂ := perm_insertionSortB le l₂
  have hdsym : ∀ {x y : α}, key x ≠ key y → key y ≠ key x := fun h => Ne.symm h
  have hd₁ : (insertionSortB le l₁).Pairwise (fun a b => key a ≠ key b) :=
    (hp₁.pairwise_iff hdsym).mpr hd
  have hd₂ : (insertionSortB le l₂).Pairwise (fun a b => key a ≠ key b) :=
    (hp₂.pairwise_iff hdsym).mpr ((hperm.pairwise_iff hdsym).mp hd)
  have hlt₁ : (insertionSortB le l₁).Pairwise
      (fun a b => natListLt (key a) (key b) = true) := by
    refine (hs₁.and hd₁).imp ?_
    rintro a b ⟨hab, hne⟩
    simp only [hle, natListLe, Bool.not_eq_true'] at hab
    by_contra hlt
    rw [Bool.not_eq_true] at hlt
    exact hne (natListLt_connex _ _ hlt hab)
  have hlt₂ : (insertionSortB le l₂).Pairwise
      (fun a b => natListLt (key a) (key b) = true) := by
    refine (hs₂.and hd₂).imp ?_
    rintro a b ⟨hab, hne⟩
    simp only [hle, natListLe, Bool.not_eq_true'] at hab
    by_contra hlt
    rw [Bool.not_eq_true] at hlt
    exact hne (natListLt_connex _ _ hlt hab)
  haveI : IsAntisymm α (fun a b => natListLt (key a) (key b) = true) := by
    constructor
    intro a b hab hba
    rw [natListLt_asymm _ _ hab] at hba
    exact absurd hba (by simp)
  exact List.eq_of_perm_of_sorted (hp₁.trans (hperm.trans hp₂.symm)) hlt₁ hlt₂

/-! ## String encodings

`strVals` lists a string's Unicode code points.  Rust orders `String`s byte-wise on
their UTF-8 bytes; since UTF-8 preserves code point order, that ordering coincides with
lexicographic comparison of code points, which is how `strLe` is defined.
`utf16Units` is the UTF-16 code unit sequence used by RFC 8785 for object-key sorting,
and `utf8Encode` produces the UTF-8 bytes of the canonical serialization.
-/

def strVals (s : String) : List Nat := s.data.map Char.toNat

/-- `a ≤ b` in Rust's `String` ordering (byte-wise on UTF-8, equivalently by code point). -/
def strLe (a b : String) : Bool := natListLe (strVals a) (strVals b)

def utf16EncodeChar (c : Char) : List Nat :=
  let v := c.toNat
  if v < 0x10000 then [v]
  else [0xd800 + (v - 0x10000) / 0x400, 0xdc00 + (v - 0x10000) % 0x400]

def utf16Units (s : String) : List Nat := s.data.flatMap utf16EncodeChar

def utf8EncodeChar (c : Char) : List Nat :=
  let v := c.toNat
  if v < 0x80 then [v]
  else if v < 0x800 then [0xc0 + v / 64, 0x80 + v % 64]
  else if v < 0x10000 then [0xe0 + v / 4096, 0x80 + v / 64 % 64, 0x80 + v % 64]
  else [0xf0 + v / 262144, 0x80 + v / 4096 % 64, 0x80 + v / 64 % 64, 0x80 + v % 64]

def utf8Encode (s : String) : List Nat := s.data.flatMap utf8EncodeChar

/-- The UTF-8 byte length of a string; models Rust's `str::len`. -/
def rustStrLen (s : String) : Nat := (utf8Encode s).length

theorem strVals_inj (a b : String) (h : strVals a = strVals b) : a = b := by
  have : a.data = b.data := by
    have hinj : Function.Injective Char.toNat := by
      intro c d hcd
      exact Char.ext (by
        have : c.val.toNat = d.val.toNat := hcd
        exact UInt32.toNat.inj this)
    exact List.map_injective_iff.mpr hinj h
  cases a
  cases b
  exact congrArg String.mk this

theorem toNat_charOfNat (n : Nat) (h : Nat.isValidChar n) : (Char.ofNat n).toNat = n := by
  rw [Char.ofNat, dif_pos h]
  rfl

/-! ## SHA-256

An executable specification of FIPS 180-4 SHA-256 over byte lists, used to model the
`sha2` crate's `Sha256::digest`, together with lowercase hex encoding modelling
`hex::encode`.
-/

def w32 (n : Nat) : Nat := n % 4294967296

def rotr32 (n x : Nat) : Nat := ((x >>> n) ||| (x <<< (32 - n))) % 4294967296

def bigSigma0 (x : Nat) : Nat := rotr32 2 x ^^^ rotr32 13 x ^^^ rotr32 22 x
def bigSigma1 (x : Nat) : Nat := rotr32 6 x ^^^ rotr32 11 x ^^^ rotr32 25 x
def smallSigma0 (x : Nat) : Nat := rotr32 7 x ^^^ rotr32 18 x ^^^ (x >>> 3)
def smallSigma1 (x : Nat) : Nat := rotr32 17 x ^^^ rotr32 19 x ^^^ (x >>> 10)
def chF (x y z : Nat) : Nat := (x &&& y) ^^^ ((x ^^^ 4294967295) &&& z)
def majF (x y z : Nat) : Nat := (x &&& y) ^^^ (x &&& z) ^^^ (y &&& z)

/-- The 64 SHA-256 round constants of FIPS 180-4 §4.2.2, in decimal. -/
def shaK : List Nat :=
  [1116352408, 1899447441, 3049323471, 3921009573, 961987163,
   1508970993, 2453635748, 2870763221, 3624381080, 310598401,
   607225278, 1426881987, 1925078388, 2162078206, 2614888103,
   3248222580, 3835390401, 4022224774, 264347078, 604807628,
   770255983, 1249150122, 1555081692, 1996064986, 2554220882,
   2821834349, 2952996808, 3210313671, 3336571891, 3584528711,
   113926993, 338241895, 666307205, 773529912, 1294757372,
   1396182291, 1695183700, 1986661051, 2177026350, 2456956037,
   2730485921, 2820302411, 3259730800, 3345764771, 3516065817,
   3600352804, 4094571909, 275423344, 430227734, 506948616,
   659060556, 883997877, 958139571, 1322822218, 1537002063,
   1747873779, 1955562222, 2024104815, 2227730452, 2361852424,
   2428436474, 2756734187, 3204031479, 3329325298]

structure Sha256State where
  a : Nat
  b : Nat
  c : Nat
  d : Nat
  e : Nat
  f : Nat
  g : Nat
  h : Nat

/-- The eight SHA-256 initial hash values of FIPS 180-4 §5.3.3, in decimal. -/
def sha256Init : Sha256State :=
  ⟨1779033703, 3144134277, 1013904242, 2773480762, 1359893119, 2600822924,
   528734635, 1541459225⟩

def sha256Round (s : Sha256State) (k w : Nat) : Sha256State :=
  let t1 := w32 (s.h + bigSigma1 s.e + chF s.e s.f s.g + k + w)
  let t2 := w32 (bigSigma0 s.a + majF s.a s.b s.c)
  ⟨w32 (t1 + t2), s.a, s.b, s.c, w32 (s.d + t1), s.e, s.f, s.g⟩

/-- Big-endian bytes of a 32-bit word. -/
def be32 (n : Nat) : List Nat :=
  [n / 16777216 % 256, n / 65536 % 256, n / 256 % 256, n % 256]

/-- Big-endian bytes of a 64-bit length field. -/
def be64 (n : Nat) : List Nat :=
  [n / 72057594037927936 % 256, n / 281474976710656 % 256, n / 1099511627776 % 256,
   n / 4294967296 % 256, n / 16777216 % 256, n / 65536 % 256, n / 256 % 256, n % 256]

/-- Group a byte list into big-endian 32-bit words. -/
def words4 : List Nat → List Nat
  | b0 :: b1 :: b2 :: b3 :: rest => (((b0 * 256 + b1) * 256 + b2) * 256 + b3) :: words4 rest
  | _ => []

def extendStep (w : List Nat) : List Nat :=
  w ++ [w32 (smallSigma1 (w.getD (w.length - 2) 0) + w.getD (w.length - 7) 0
    + smallSigma0 (w.getD (w.length - 15) 0) + w.getD (w.length - 16) 0)]

def extendN : Nat → List Nat → List Nat
  | 0, w => w
  | n + 1, w => extendN n (extendStep w)

def sha256Compress (hs : Sha256State) (block : List Nat) : Sha256State :=
  let w := extendN 48 (words4 block)
  let s := (shaK.zip w).foldl (fun s kw => sha256Round s kw.1 kw.2) hs
  ⟨w32 (hs.a + s.a), w32 (hs.b + s.b), w32 (hs.c + s.c), w32 (hs.d + s.d),
   w32 (hs.e + s.e), w32 (hs.f + s.f), w32 (hs.g + s.g), w32 (hs.h + s.h)⟩

def sha256Pad (msg : List Nat) : List Nat :=
  let z := (120 - (msg.length + 1) % 64) % 64
  msg ++ [0x80] ++ List.replicate z 0 ++ be64 (8 * msg.length)

def chunks64Fuel : Nat → List Nat → List (List Nat)
  | 0, _ => []
  | fuel + 1, l => if l = [] then [] else l.take 64 :: chunks64Fuel fuel (l.drop 64)

/-- Split a byte list into 64-byte blocks (the fuel is an upper bound on the number of
blocks, so it never truncates). -/
def chunks64 (l : List Nat) : List (List Nat) := chunks64Fuel l.length l

/-- SHA-256 digest (32 bytes) of a byte list. -/
def sha256 (msg : List Nat) : List Nat :=
  let final := (chunks64 (sha256Pad msg)).foldl sha256Compress sha256Init
  be32 final.a ++ be32 final.b ++ be32 final.c ++ be32 final.d
    ++ be32 final.e ++ be32 final.f ++ be32 final.g ++ be32 final.h

/-- Lowercase hexadecimal digit. -/
def hexDigitChar (n : Nat) : Char := Char.ofNat (if n < 10 then 48 + n else 87 + n)

def hexByte (b : Nat) : List Char := [hexDigitChar (b / 16), hexDigitChar (b % 16)]

/-- Lowercase hex encoding of a byte list; models `hex::encode`. -/
def hexEncode (bytes : List Nat) : String := ⟨bytes.flatMap hexByte⟩

/-- SHA-256 sanity anchor: the well-known digest of the three bytes `"abc"`. -/
theorem sha256_abc :
    hexEncode (sha256 (utf8Encode "abc"))
      = "ba7816bf8f01cfea414140de5dae2223b00361a396177a9cb410ff61f20015ad" := by
  decide

/-- SHA-256 sanity anchor: the well-known digest of the empty byte string. -/
theorem sha256_empty :
    hexEncode (sha256 [])
      = "e3b0c44298fc1c149afbf4c8996fb92427ae41e4649b934ca495991b7852b855" := by
  decide

/-! ## JSON values and the RFC 8785 canonical serializer

`Json` models the JSON values produced by serde's `Serialize` derive: struct fields
become object members in declaration order, `Option::None` becomes `null`, `u32`
becomes a number.  `Json.ser` is the canonical serialization of RFC 8785 (JCS), as
implemented by the `serde_json_canonicalizer` crate: no whitespace, object members
sorted by the UTF-16 code unit sequence of their keys, numbers in canonical form,
UTF-8 output.  Member values are serialized first and the rendered members are then
sorted by key; since the comparator looks only at keys, this emits the same bytes as
sorting before serializing.
-/

mutual

inductive Json where
  | null : Json
  | bool : Bool → Json
  | num : Nat → Json
  | str : String → Json
  | arr : JsonList → Json
  | obj : JsonMembers → Json

inductive JsonList where
  | nil : JsonList
  | cons : Json → JsonList → JsonList

inductive JsonMembers where
  | nil : JsonMembers
  | cons : String → Json → JsonMembers → JsonMembers

end

def jsonListOf : List Json → JsonList
  | [] => .nil
  | j :: l => .cons j (jsonListOf l)

def jsonMembersOf : List (String × Json) → JsonMembers
  | [] => .nil
  | (k, v) :: l => .cons k v (jsonMembersOf l)

/-- JCS string escaping (RFC 8785 §3.2.2.2): the two-character escapes for quote,
backslash, backspace, tab, line feed, form feed and carriage return; `\u00` plus
lowercase hex for the remaining control characters; all other characters literally. -/
def escapeChar (c : Char) : List Char :=
  if c = '"' then ['\\', '"']
  else if c = '\\' then ['\\', '\\']
  else if c.toNat = 8 then ['\\', 'b']
  else if c.toNat = 9 then ['\\', 't']
  else if c.toNat = 10 then ['\\', 'n']
  else if c.toNat = 12 then ['\\', 'f']
  else if c.toNat = 13 then ['\\', 'r']
  else if c.toNat < 32 then
    ['\\', 'u', '0', '0', hexDigitChar (c.toNat / 16), hexDigitChar (c.toNat % 16)]
  else [c]

/-- The UTF-8 bytes of a JSON string literal: quote, escaped characters, quote. -/
def jstrBytes (s : String) : List Nat :=
  [34] ++ (s.data.flatMap escapeChar).flatMap utf8EncodeChar ++ [34]

/-- Canonical (ES6/RFC 8785) form of an unsigned integer below `2^53`: plain decimal. -/
def natBytes (n : Nat) : List Nat := utf8Encode (Nat.repr n)

/-- Sort rendered object members by the UTF-16 code unit sequence of their keys. -/
def sortPairs (l : List (String × List Nat)) : List (String × List Nat) :=
  insertionSortB (fun p q => natListLe (utf16Units p.1) (utf16Units q.1)) l

def emitMember (p : String × List Nat) : List Nat := jstrBytes p.1 ++ [58] ++ p.2

def emitMembers : List (String × List Nat) → List Nat
  | [] => []
  | [p] => emitMember p
  | p :: rest => emitMember p ++ [44] ++ emitMembers rest

mutual

/-- Canonical serialization to UTF-8 bytes (RFC 8785). -/
def Json.ser : Json → List Nat
  | .null => utf8Encode "null"
  | .bool true => utf8Encode "true"
  | .bool false => utf8Encode "false"
  | .num n => natBytes n
  | .str s => jstrBytes s
  | .arr l => [91] ++ JsonList.serElems l ++ [93]
  | .obj m => [123] ++ emitMembers (sortPairs (JsonMembers.render m)) ++ [125]

/-- Array elements, serialized in order and comma-separated (JCS does not sort arrays). -/
def JsonList.serElems : JsonList → List Nat
  | .nil => []
  | .cons j .nil => j.ser
  | .cons j tl => j.ser ++ [44] ++ JsonList.serElems tl

/-- Render each member's value, keeping the member order. -/
def JsonMembers.render : JsonMembers → List (String × List Nat)
  | .nil => []
  | .cons k v tl => (k, v.ser) :: JsonMembers.render tl

end

mutual

/-- Every number in the value is representable in the canonical number form. -/
def Json.numsOk : Json → Bool
  | .null => true
  | .bool _ => true
  | .num n => decide (n < 9007199254740992)
  | .str _ => true
  | .arr l => JsonList.numsOk l
  | .obj m => JsonMembers.numsOk m

def JsonList.numsOk : JsonList → Bool
  | .nil => true
  | .cons j tl => Json.numsOk j && JsonList.numsOk tl

def JsonMembers.numsOk : JsonMembers → Bool
  | .nil => true
  | .cons _ v tl => Json.numsOk v && JsonMembers.numsOk tl

end

/-- Models `serde_json_canonicalizer::to_vec`: produces the RFC 8785 canonical UTF-8
bytes of a value, failing exactly when some value cannot be represented in the
canonical form (for the value shapes in this model, a number outside the exact-integer
range of an IEEE double). -/
def to_vec (j : Json) : Except String (List Nat) :=
  if j.numsOk then .ok j.ser else .error "number cannot be represented in canonical form"

deriving instance DecidableEq for Except

/-! ## `src/server/src/api.rs`: upstream catalog types and the pagination loop -/

structure FileResponse where
  name : String
  filename : String
  media_type : Option String
  hash : String
  hash_algorithm : String
  url : String
  lang : Option String
  hidden : Bool
deriving DecidableEq

structure LinkResponse where
  name : String
  url : String
deriving DecidableEq

structure ArtifactResponse where
  id : String
  title : String
  summary : String
  description : Option String
  url : String
  files : List FileResponse
  links : List LinkResponse
  people : List String
  identities : List String
  from_year : Nat
  to_year : Option Nat
  decades : List Nat
  collections : List String
deriving DecidableEq

structure ArtifactsResponse where
  items : List ArtifactResponse
  next_cursor : Option String
deriving DecidableEq

def ARTIFACTS_PAGE_SIZE : Nat := 50

/-- A single request to the paginated catalog endpoint: the query parameters sent
(`limit`, always the fixed page size, and the optional `cursor`). -/
structure PageRequest where
  limit : Nat
  cursor : Option String
deriving DecidableEq

/-- Transport errors, non-success statuses and malformed bodies, collapsed into the
message carried by `worker::Error`. -/
abbrev FetchError := String

/-- The upstream catalog service, as seen through one request: a function from the
request to either a page or an error.  The network is modelled as this oracle. -/
abbrev Upstream := PageRequest → Except FetchError ArtifactsResponse

/-- Models `fetch_artifacts_page`: one GET with `limit = 50` and the given cursor. -/
def fetch_artifacts_page (upstream : Upstream) (cursor : Option String) :
    Except FetchError ArtifactsResponse :=
  upstream ⟨ARTIFACTS_PAGE_SIZE, cursor⟩

/-- The body of the `loop` in `fetch_all_artifacts`, with the issued requests recorded
as a trace.  `fuel` bounds the number of iterations (the Rust loop has no bound; a
result of `none` means the cursor chain did not terminate within `fuel` pages).
`acc` is `all_artifacts`, extended with each page's items in arrival order. -/
def fetch_all_go (upstream : Upstream) :
    Nat → Option String → List ArtifactResponse →
    List PageRequest × Option (Except FetchError (List ArtifactResponse))
  | 0, _, _ => ([], none)
  | fuel + 1, cursor, acc =>
    let req : PageRequest := ⟨ARTIFACTS_PAGE_SIZE, cursor⟩
    match fetch_artifacts_page upstream cursor with
    | .error e => ([req], some (.error e))
    | .ok page =>
      let acc := acc ++ page.items
      match page.next_cursor with
      | some next_cursor =>
        let rest := fetch_all_go upstream fuel (some next_cursor) acc
        (req :: rest.1, rest.2)
      | none => ([req], some (.ok acc))

/-- Models `fetch_all_artifacts`: start with no cursor and an empty accumulator. -/
def fetch_all_artifacts (upstream : Upstream) (fuel : Nat) :
    List PageRequest × Option (Except FetchError (List ArtifactResponse)) :=
  fetch_all_go upstream fuel none []

/-! ## `src/server/src/checksum.rs`: metadata projection and the backup checksum -/

structure FileMetadata where
  name : String
  filename : String
  media_type : Option String
  hash : String
  hash_algorithm : String
  url : String
  lang : Option String
  hidden : Bool
deriving DecidableEq

structure LinkMetadata where
  name : String
  url : String
deriving DecidableEq

structure ArtifactMetadata where
  id : String
  url : String
  title : String
  summary : String
  description : Option String
  files : List FileMetadata
  links : List LinkMetadata
  people : List String
  identities : List String
  from_year : Nat
  to_year : Option Nat
  decades : List Nat
  collections : List String
deriving DecidableEq

/-- Models `impl From<ArtifactResponse> for ArtifactMetadata`. -/
def ArtifactMetadata.fromResponse (artifact : ArtifactResponse) : ArtifactMetadata :=
  { id := artifact.id
    url := artifact.url
    title := artifact.title
    summary := artifact.summary
    description := artifact.description
    files := artifact.files.map fun file =>
      { name := file.name
        filename := file.filename
        media_type := file.media_type
        hash := file.hash
        hash_algorithm := file.hash_algorithm
        url := file.url
        lang := file.lang
        hidden := file.hidden }
    links := artifact.links.map fun link => { name := link.name, url := link.url }
    people := artifact.people
    identities := artifact.identities
    from_year := artifact.from_year
    to_year := artifact.to_year
    decades := artifact.decades
    collections := artifact.collections }

def jsonOfOptionStr : Option String → Json
  | none => .null
  | some s => .str s

def jsonOfOptionNat : Option Nat → Json
  | none => .null
  | some n => .num n

def jsonOfStrList (l : List String) : Json := .arr (jsonListOf (l.map Json.str))

def jsonOfNatList (l : List Nat) : Json := .arr (jsonListOf (l.map Json.num))

/-- serde's `Serialize` derive for `FileMetadata`: object members in declaration order. -/
def FileMetadata.fields (f : FileMetadata) : List (String × Json) :=
  [("name", .str f.name), ("filename", .str f.filename),
   ("media_type", jsonOfOptionStr f.media_type), ("hash", .str f.hash),
   ("hash_algorithm", .str f.hash_algorithm), ("url", .str f.url),
   ("lang", jsonOfOptionStr f.lang), ("hidden", .bool f.hidden)]

def FileMetadata.toJson (f : FileMetadata) : Json := .obj (jsonMembersOf f.fields)

/-- serde's `Serialize` derive for `LinkMetadata`. -/
def LinkMetadata.fields (l : LinkMetadata) : List (String × Json) :=
  [("name", .str l.name), ("url", .str l.url)]

def LinkMetadata.toJson (l : LinkMetadata) : Json := .obj (jsonMembersOf l.fields)

/-- serde's `Serialize` derive for `ArtifactMetadata`: object members in declaration
order (the canonicalizer later sorts them by key). -/
def ArtifactMetadata.fields (m : ArtifactMetadata) : List (String × Json) :=
  [("id", .str m.id), ("url", .str m.url), ("title", .str m.title),
   ("summary", .str m.summary), ("description", jsonOfOptionStr m.description),
   ("files", .arr (jsonListOf (m.files.map FileMetadata.toJson))),
   ("links", .arr (jsonListOf (m.links.map LinkMetadata.toJson))),
   ("people", jsonOfStrList m.people), ("identities", jsonOfStrList m.identities),
   ("from_year", .num m.from_year), ("to_year", jsonOfOptionNat m.to_year),
   ("decades", jsonOfNatList m.decades), ("collections", jsonOfStrList m.collections)]

def ArtifactMetadata.toJson (m : ArtifactMetadata) : Json := .obj (jsonMembersOf m.fields)

/-- Models `compute_canonicalized_checksum`: canonicalize, SHA-256, lowercase hex. -/
def compute_canonicalized_checksum (object : Json) : Except String String :=
  ((to_vec object).mapError
      (fun e => "Serialization error: " ++ e)).map
    (fun canonicalized_json => hexEncode (sha256 canonicalized_json))

/-- Models `compute_backup_checksum`: project every record, sort by `id` (Rust's
stable `sort_by_key` under `String`'s byte-wise order), canonicalize and hash. -/
def compute_backup_checksum (api_response : List ArtifactResponse) :
    Except String String :=
  let sorted_metadata :=
    insertionSortB (fun a b => strLe a.id b.id)
      (api_response.map ArtifactMetadata.fromResponse)
  compute_canonicalized_checksum
    (.arr (jsonListOf (sorted_metadata.map ArtifactMetadata.toJson)))

/-! ## `src/server/src/validate.rs`: the three validators -/

def CURRENT_FORMAT_VERSION : Nat := 1

def CHECKSUM_BYTES : Nat := 32

def is_valid_format_version (format_version : Nat) : Bool :=
  decide (format_version > 0) && decide (format_version ≤ CURRENT_FORMAT_VERSION)

/-- Models Rust's `char::is_ascii_hexdigit`: `0-9`, `a-f` or `A-F`. -/
def isAsciiHexdigit (c : Char) : Bool :=
  (decide (48 ≤ c.toNat) && decide (c.toNat ≤ 57))
    || (decide (97 ≤ c.toNat) && decide (c.toNat ≤ 102))
    || (decide (65 ≤ c.toNat) && decide (c.toNat ≤ 70))

/-- Value of an ASCII hex digit, either case. -/
def hexVal (c : Char) : Option Nat :=
  if 48 ≤ c.toNat ∧ c.toNat ≤ 57 then some (c.toNat - 48)
  else if 97 ≤ c.toNat ∧ c.toNat ≤ 102 then some (c.toNat - 87)
  else if 65 ≤ c.toNat ∧ c.toNat ≤ 70 then some (c.toNat - 55)
  else none

/-- Value of a big-endian string of hex digits; `none` if any is not a hex digit. -/
def parseHexList (cs : List Char) : Option Nat :=
  cs.foldl
    (fun acc c =>
      match acc, hexVal c with
      | some a, some v => some (a * 16 + v)
      | _, _ => none)
    (some 0)

/-- The 8-4-4-4-12 hyphenated UUID form: 36 characters with `-` at 8, 13, 18, 23. -/
def parseHyphenated (cs : List Char) : Option Nat :=
  if cs.length = 36 ∧ (cs.getD 8 ' ').toNat = 45 ∧ (cs.getD 13 ' ').toNat = 45
      ∧ (cs.getD 18 ' ').toNat = 45 ∧ (cs.getD 23 ' ').toNat = 45 then
    parseHexList (cs.take 8 ++ ((cs.drop 9).take 4 ++ ((cs.drop 14).take 4
      ++ ((cs.drop 19).take 4 ++ cs.drop 24))))
  else none

/-- Models `uuid::Uuid::try_parse`, which dispatches on the input length: 32 for the
simple form, 36 hyphenated, 38 braced (code points 123/125 around a hyphenated form),
45 for a `urn:uuid:` prefix.  Returns the 128-bit value on success. -/
def uuidTryParse (s : String) : Option Nat :=
  let cs := s.data
  if cs.length = 32 then parseHexList cs
  else if cs.length = 36 then parseHyphenated cs
  else if cs.length = 38 ∧ (cs.getD 0 ' ').toNat = 123 ∧ (cs.getD 37 ' ').toNat = 125 then
    parseHyphenated (cs.drop 1).dropLast
  else if cs.length = 45 ∧ cs.take 9 = "urn:uuid:".data then
    parseHyphenated (cs.drop 9)
  else none

/-- Models `is_valid_keeper_id`: parses as a UUID and is not the nil (all-zero) UUID. -/
def is_valid_keeper_id (keeper_id : String) : Bool :=
  match uuidTryParse keeper_id with
  | some uuid => decide (uuid ≠ 0)
  | none => false

/-- Models `is_valid_checksum`.  Rust's `str::len` is the UTF-8 byte length, and
`str::chars` iterates code points; both are modelled faithfully. -/
def is_valid_checksum (checksum : String) : Bool :=
  if rustStrLen checksum ≠ CHECKSUM_BYTES * 2 then false
  else checksum.data.all isAsciiHexdigit

/-! ## `src/server/src/lib.rs`: the attestation ingestion handler -/

structure BackupRequest where
  format_version : Nat
  keeper_id : String
  checksum : String
  size : Nat
  email : Option String
deriving DecidableEq

/-- Models Rust's `str::to_ascii_lowercase` (`Char.toLower` maps exactly ASCII
`A`-`Z` to lowercase and leaves every other character unchanged). -/
def toAsciiLowercase (s : String) : String := ⟨s.data.map Char.toLower⟩

/-- `⌊log2 n⌋` by structural recursion on a fuel bound (so that it reduces in the
kernel, unlike `Nat.log2`, which is defined by well-founded recursion). -/
def natLog2Fuel : Nat → Nat → Nat
  | 0, _ => 0
  | fuel + 1, n => if n < 2 then 0 else natLog2Fuel fuel (n / 2) + 1

def natLog2 (n : Nat) : Nat := natLog2Fuel n n

/-- The exact integer value of `n as f64` for a `u64` value `n`: IEEE 754 binary64
round-to-nearest, ties to even.  Every `u64` lies well inside the finite range of an
`f64`, so only the rounding of the 53-bit significand matters: integers up to `2^53`
convert exactly, larger ones are rounded at bit `k = ⌊log2 n⌋ - 52`. -/
def u64_as_f64 (n : Nat) : Nat :=
  if n < 9007199254740992 then n
  else
    let k := natLog2 n - 52
    let q := n >>> k
    let r := n % 2 ^ k
    let half := 2 ^ (k - 1)
    let q' :=
      if half < r then q + 1
      else if r < half then q
      else if q % 2 = 0 then q else q + 1
    q' <<< k

/-- One row of the `backups` table as bound by the insert in `post_backup`: format
version, keeper id, lowercased checksum, the size bound as an `f64`, the optional
contact value, and the contact type tag. -/
structure StoredBackup where
  format_version : Nat
  keeper_id : String
  checksum : String
  size : Nat
  contact : Option String
  contact_type : Option String
deriving DecidableEq

/-- The values `post_backup` binds to the insert statement. -/
def storedRow (body : BackupRequest) : StoredBackup :=
  { format_version := body.format_version
    keeper_id := body.keeper_id
    checksum := toAsciiLowercase body.checksum
    size := u64_as_f64 body.size
    contact := body.email
    contact_type :=
      match body.email with
      | some _ => some "email"
      | none => none }

/-- Outcome of the `prepare`/`bind`/`run` pipeline against the D1 store.  A `failure`
covers a bind error as well as a run error: both are mapped to a 500 and, since the
insert is a single atomic statement, leave no row behind. -/
inductive DbResult where
  | failure : DbResult
  | success : DbResult
deriving DecidableEq

/-- Observable steps of one `post_backup` invocation, in execution order. -/
inductive Step where
  | checkedFormatVersion : Step
  | checkedKeeperId : Step
  | checkedChecksum : Step
  | insertAttempted : Step
deriving DecidableEq

/-- Models `post_backup`.  The result triple is: the trace of executed steps, the row
persisted by the insert (`none` if no row was written), and the HTTP outcome —
`.ok ()` is the 204 No Content success (no response body), `.error 400` is
`StatusCode::BAD_REQUEST`, `.error 500` is `StatusCode::INTERNAL_SERVER_ERROR`.
Console logging is not modelled. -/
def post_backup (body : BackupRequest) (db : DbResult) :
    List Step × Option StoredBackup × Except Nat Unit :=
  if !is_valid_format_version body.format_version then
    ([.checkedFormatVersion], none, .error 400)
  else if !is_valid_keeper_id body.keeper_id then
    ([.checkedFormatVersion, .checkedKeeperId], none, .error 400)
  else if !is_valid_checksum body.checksum then
    ([.checkedFormatVersion, .checkedKeeperId, .checkedChecksum], none, .error 400)
  else
    match db with
    | .failure =>
      ([.checkedFormatVersion, .checkedKeeperId, .checkedChecksum, .insertAttempted],
        none, .error 500)
    | .success =>
      ([.checkedFormatVersion, .checkedKeeperId, .checkedChecksum, .insertAttempted],
        some (storedRow body), .ok ())

/-! ## Helper lemmas about the validators -/

theorem utf8EncodeChar_of_lt (c : Char) (h : c.toNat < 128) :
    utf8EncodeChar c = [c.toNat] := by
  simp [utf8EncodeChar, h]

theorem isAsciiHexdigit_lt (c : Char) (h : isAsciiHexdigit c = true) : c.toNat < 128 := by
  simp only [isAsciiHexdigit, Bool.or_eq_true, Bool.and_eq_true, decide_eq_true_eq] at h
  omega

theorem isAsciiHexdigit_iff (c : Char) :
    isAsciiHexdigit c = true ↔
      ((48 ≤ c.toNat ∧ c.toNat ≤ 57) ∨ (97 ≤ c.toNat ∧ c.toNat ≤ 102)
        ∨ (65 ≤ c.toNat ∧ c.toNat ≤ 70)) := by
  simp only [isAsciiHexdigit, Bool.or_eq_true, Bool.and_eq_true, decide_eq_true_eq]
  tauto

theorem flatMap_length_of_hex (l : List Char)
    (h : ∀ c ∈ l, isAsciiHexdigit c = true) :
    (l.flatMap utf8EncodeChar).length = l.length := by
  induction l with
  | nil => rfl
  | cons c cs ih =>
    simp only [List.flatMap_cons, List.length_append, List.length_cons]
    rw [utf8EncodeChar_of_lt c (isAsciiHexdigit_lt c (h c (by simp)))]
    simp only [List.length_singleton, ih (fun d hd => h d (by simp [hd]))]
    omega

/-- C7: `is_valid_checksum s` is true iff `s` consists of exactly 64 characters, each
an ASCII hex digit of either case (`0-9`, `a-f` or `A-F`).  The code compares the
UTF-8 byte length with 64 and then checks every character; since hex digits are
one-byte characters, this agrees exactly with counting characters. -/
theorem checksum_validator_spec (s : String) :
    is_valid_checksum s = true ↔
      (s.data.length = 64
        ∧ ∀ c ∈ s.data,
            (48 ≤ c.toNat ∧ c.toNat ≤ 57) ∨ (97 ≤ c.toNat ∧ c.toNat ≤ 102)
              ∨ (65 ≤ c.toNat ∧ c.toNat ≤ 70)) := by
  constructor
  · intro h
    unfold is_valid_checksum at h
    by_cases hl : rustStrLen s ≠ CHECKSUM_BYTES * 2
    · rw [if_pos hl] at h
      exact absurd h (by simp)
    · rw [if_neg hl] at h
      push_neg at hl
      have hall : ∀ c ∈ s.data, isAsciiHexdigit c = true := by
        simpa [List.all_eq_true] using h
      have hlen : (s.data.flatMap utf8EncodeChar).length = s.data.length :=
        flatMap_length_of_hex _ hall
      refine ⟨?_, fun c hc => (isAsciiHexdigit_iff c).mp (hall c hc)⟩
      have hrs : rustStrLen s = s.data.length := hlen
      rw [CHECKSUM_BYTES] at hl
      omega
  · rintro ⟨hlen, hhex⟩
    have hall : ∀ c ∈ s.data, isAsciiHexdigit c = true :=
      fun c hc => (isAsciiHexdigit_iff c).mpr (hhex c hc)
    unfold is_valid_checksum
    have hrs : rustStrLen s = 64 := by
      show (s.data.flatMap utf8EncodeChar).length = 64
      rw [flatMap_length_of_hex _ hall, hlen]
    rw [if_neg (by simp [hrs, CHECKSUM_BYTES])]
    exact List.all_eq_true.mpr hall

/-- C7 witness: a concrete string of 64 `a` characters is accepted. -/
theorem checksum_validator_spec_witness :
    is_valid_checksum (String.mk (List.replicate 64 'a')) = true :=
  (checksum_validator_spec _).mpr (by decide)

/-- C8: `is_valid_format_version v` holds iff `0 < v ≤ CURRENT_FORMAT_VERSION`, the
current version is 1, and in particular 0 is rejected, 1 accepted, and every version
from 2 upward rejected. -/
theorem format_version_validator_spec (v : Nat) :
    (is_valid_format_version v = true ↔ 0 < v ∧ v ≤ CURRENT_FORMAT_VERSION)
    ∧ CURRENT_FORMAT_VERSION = 1
    ∧ is_valid_format_version 0 = false
    ∧ is_valid_format_version 1 = true
    ∧ (∀ w, 2 ≤ w → is_valid_format_version w = false) := by
  refine ⟨?_, rfl, rfl, rfl, ?_⟩
  · simp only [is_valid_format_version, Bool.and_eq_true, decide_eq_true_eq, gt_iff_lt]
  · intro w hw
    have h1 : decide (w ≤ CURRENT_FORMAT_VERSION) = false := by
      simp only [CURRENT_FORMAT_VERSION, decide_eq_false_iff_not]
      omega
    simp [is_valid_format_version, h1]

/-! ## Helper lemmas about ASCII lowercasing -/

theorem toLower_toNat (c : Char) :
    (Char.toLower c).toNat
      = if 65 ≤ c.toNat ∧ c.toNat ≤ 90 then c.toNat + 32 else c.toNat := by
  by_cases h : 65 ≤ c.toNat ∧ c.toNat ≤ 90
  · rw [if_pos h]
    have : Char.toLower c = Char.ofNat (c.toNat + 32) := by
      rw [Char.toLower]
      exact if_pos ⟨h.1, h.2⟩
    rw [this]
    exact toNat_charOfNat _ (Or.inl (by omega))
  · rw [if_neg h]
    have : Char.toLower c = c := by
      rw [Char.toLower]
      exact if_neg h
    rw [this]

theorem isAsciiHexdigit_toLower (c : Char) :
    isAsciiHexdigit (Char.toLower c) = isAsciiHexdigit c := by
  rw [Bool.eq_iff_iff, isAsciiHexdigit_iff, isAsciiHexdigit_iff, toLower_toNat]
  by_cases h : 65 ≤ c.toNat ∧ c.toNat ≤ 90
  · rw [if_pos h]
    omega
  · rw [if_neg h]

theorem utf8Len_toLower (c : Char) :
    (utf8EncodeChar (Char.toLower c)).length = (utf8EncodeChar c).length := by
  by_cases h : 65 ≤ c.toNat ∧ c.toNat ≤ 90
  · have hlo : (Char.toLower c).toNat = c.toNat + 32 := by rw [toLower_toNat, if_pos h]
    rw [utf8EncodeChar_of_lt _ (by omega), utf8EncodeChar_of_lt c (by omega)]
    rfl
  · have : Char.toLower c = c := by
      rw [Char.toLower]
      exact if_neg h
    rw [this]

theorem rustStrLen_toAsciiLowercase (s : String) :
    rustStrLen (toAsciiLowercase s) = rustStrLen s := by
  show ((s.data.map Char.toLower).flatMap utf8EncodeChar).length
    = (s.data.flatMap utf8EncodeChar).length
  induction s.data with
  | nil => rfl
  | cons c cs ih =>
    simp only [List.map_cons, List.flatMap_cons, List.length_append, ih, utf8Len_toLower]

theorem is_valid_checksum_toLower (s : String) :
    is_valid_checksum (toAsciiLowercase s) = is_valid_checksum s := by
  unfold is_valid_checksum
  rw [rustStrLen_toAsciiLowercase]
  by_cases h : rustStrLen s ≠ CHECKSUM_BYTES * 2
  · rw [if_pos h, if_pos h]
  · rw [if_neg h, if_neg h]
    show (s.data.map Char.toLower).all isAsciiHexdigit = s.data.all isAsciiHexdigit
    rw [List.all_map]
    induction s.data with
    | nil => rfl
    | cons c cs ih =>
      simp only [List.all_cons, ih, Function.comp_apply, isAsciiHexdigit_toLower]

/-- C8 witness: version 2 (newer than the current version 1) is rejected. -/
theorem format_version_validator_spec_witness : is_valid_format_version 2 = false :=
  (format_version_validator_spec 0).2.2.2.2 2 (by norm_num)

/-! ## Helper lemmas about `post_backup` -/

def allSteps : List Step :=
  [.checkedFormatVersion, .checkedKeeperId, .checkedChecksum, .insertAttempted]

theorem post_backup_cases (body : BackupRequest) (db : DbResult) :
    (is_valid_format_version body.format_version = false
        ∧ post_backup body db = ([.checkedFormatVersion], none, .error 400))
    ∨ (is_valid_format_version body.format_version = true
        ∧ is_valid_keeper_id body.keeper_id = false
        ∧ post_backup body db = ([.checkedFormatVersion, .checkedKeeperId], none, .error 400))
    ∨ (is_valid_format_version body.format_version = true
        ∧ is_valid_keeper_id body.keeper_id = true
        ∧ is_valid_checksum body.checksum = false
        ∧ post_backup body db
            = ([.checkedFormatVersion, .checkedKeeperId, .checkedChecksum], none, .error 400))
    ∨ (is_valid_format_version body.format_version = true
        ∧ is_valid_keeper_id body.keeper_id = true
        ∧ is_valid_checksum body.checksum = true
        ∧ db = .failure
        ∧ post_backup body db = (allSteps, none, .error 500))
    ∨ (is_valid_format_version body.format_version = true
        ∧ is_valid_keeper_id body.keeper_id = true
        ∧ is_valid_checksum body.checksum = true
        ∧ db = .success
        ∧ post_backup body db = (allSteps, some (storedRow body), .ok ())) := by
  by_cases h1 : is_valid_format_version body.format_version = true
  · by_cases h2 : is_valid_keeper_id body.keeper_id = true
    · by_cases h3 : is_valid_checksum body.checksum = true
      · cases db with
        | failure =>
          refine Or.inr (Or.inr (Or.inr (Or.inl ⟨h1, h2, h3, rfl, ?_⟩)))
          simp [post_backup, h1, h2, h3, allSteps]
        | success =>
          refine Or.inr (Or.inr (Or.inr (Or.inr ⟨h1, h2, h3, rfl, ?_⟩)))
          simp [post_backup, h1, h2, h3, allSteps]
      · rw [Bool.not_eq_true] at h3
        refine Or.inr (Or.inr (Or.inl ⟨h1, h2, h3, ?_⟩))
        simp [post_backup, h1, h2, h3]
    · rw [Bool.not_eq_true] at h2
      refine Or.inr (Or.inl ⟨h1, h2, ?_⟩)
      simp [post_backup, h1, h2]
  · rw [Bool.not_eq_true] at h1
    refine Or.inl ⟨h1, ?_⟩
    simp [post_backup, h1]

theorem post_backup_some (body : BackupRequest) (db : DbResult) (row : StoredBackup)
    (h : (post_backup body db).2.1 = some row) :
    is_valid_format_version body.format_version = true
      ∧ is_valid_keeper_id body.keeper_id = true
      ∧ is_valid_checksum body.checksum = true
      ∧ db = .success ∧ row = storedRow body := by
  rcases post_backup_cases body db with ⟨h1, he⟩ | ⟨h1, h2, he⟩ | ⟨h1, h2, h3, he⟩
    | ⟨h1, h2, h3, hdb, he⟩ | ⟨h1, h2, h3, hdb, he⟩ <;> rw [he] at h <;> simp at h
  exact ⟨h1, h2, h3, hdb, h.symm⟩

/-- A concrete fully valid request: current format version, a well-formed non-nil
keeper UUID, a 64-hex-digit checksum, and a size of `2^53 + 1`. -/
def exampleBody : BackupRequest :=
  { format_version := 1
    keeper_id := "3fa85f64-5717-4562-b3fc-2c963f66afa6"
    checksum := String.mk (List.replicate 64 'a')
    size := 9007199254740993
    email := none }

/-- The same request with a small size. -/
def exampleBodySmall : BackupRequest := { exampleBody with size := 1000 }

/-- C6: two valid submissions identical except for the ASCII case of the checksum
produce identical handler outcomes (and hence identical persisted records), and any
persisted row carries the lowercase hex normalization of the submitted checksum. -/
theorem checksum_case_insensitive (body : BackupRequest) (c : String) (db : DbResult)
    (h : toAsciiLowercase c = toAsciiLowercase body.checksum) :
    post_backup { body with checksum := c } db = post_backup body db
      ∧ ∀ row, (post_backup body db).2.1 = some row →
          row.checksum = toAsciiLowercase body.checksum := by
  obtain ⟨fv, kid, ck, sz, em⟩ := body
  have hvc : is_valid_checksum c = is_valid_checksum ck := by
    rw [← is_valid_checksum_toLower c, h, is_valid_checksum_toLower]
  constructor
  · simp only [post_backup, storedRow, hvc, h]
  · intro row hrow
    rcases post_backup_some _ _ _ hrow with ⟨_, _, _, _, hr⟩
    rw [hr]
    rfl

/-- C6 witness: a concrete all-uppercase and all-lowercase submission agree. -/
theorem checksum_case_insensitive_witness :
    post_backup { exampleBody with checksum := String.mk (List.replicate 64 'A') } .success
        = post_backup exampleBody .success
      ∧ ∀ row, (post_backup exampleBody .success).2.1 = some row →
          row.checksum = toAsciiLowercase exampleBody.checksum :=
  checksum_case_insensitive exampleBody (String.mk (List.replicate 64 'A')) .success
    (by decide)

/-- C5: the handler checks format version, then keeper id, then checksum; a failed
check short-circuits to a 400 with nothing persisted; the insert is attempted exactly
when all three checks pass; a persistence failure gives a 500 with nothing persisted;
success gives 204 No Content; any persisted row implies all checks passed. -/
theorem post_backup_state_machine (body : BackupRequest) (db : DbResult) :
    (is_valid_format_version body.format_version = false →
        post_backup body db = ([.checkedFormatVersion], none, .error 400))
    ∧ (is_valid_format_version body.format_version = true →
        is_valid_keeper_id body.keeper_id = false →
        post_backup body db = ([.checkedFormatVersion, .checkedKeeperId], none, .error 400))
    ∧ (is_valid_format_version body.format_version = true →
        is_valid_keeper_id body.keeper_id = true →
        is_valid_checksum body.checksum = false →
        post_backup body db
          = ([.checkedFormatVersion, .checkedKeeperId, .checkedChecksum], none, .error 400))
    ∧ (Step.insertAttempted ∈ (post_backup body db).1 ↔
        (is_valid_format_version body.format_version = true
          ∧ is_valid_keeper_id body.keeper_id = true
          ∧ is_valid_checksum body.checksum = true))
    ∧ (db = .failure →
        is_valid_format_version body.format_version = true →
        is_valid_keeper_id body.keeper_id = true →
        is_valid_checksum body.checksum = true →
        post_backup body db = (allSteps, none, .error 500))
    ∧ (db = .success →
        is_valid_format_version body.format_version = true →
        is_valid_keeper_id body.keeper_id = true →
        is_valid_checksum body.checksum = true →
        post_backup body db = (allSteps, some (storedRow body), .ok ()))
    ∧ (∀ row, (post_backup body db).2.1 = some row →
        is_valid_format_version body.format_version = true
          ∧ is_valid_keeper_id body.keeper_id = true
          ∧ is_valid_checksum body.checksum = true
          ∧ db = .success ∧ row = storedRow body) := by
  refine ⟨?_, ?_, ?_, ?_, ?_, ?_, fun row hrow => post_backup_some body db row hrow⟩ <;>
    rcases post_backup_cases body db with ⟨h1, he⟩ | ⟨h1, h2, he⟩ | ⟨h1, h2, h3, he⟩
      | ⟨h1, h2, h3, hdb, he⟩ | ⟨h1, h2, h3, hdb, he⟩ <;>
    simp_all [allSteps]

/-- C5 witness: a concrete fully valid request with a working store persists its row
and returns 204. -/
theorem post_backup_state_machine_witness :
    post_backup exampleBody .success = (allSteps, some (storedRow exampleBody), .ok ()) :=
  (post_backup_state_machine exampleBody .success).2.2.2.2.2.1 rfl (by decide) (by decide)
    (by decide)

/-! ## C1: size persistence through the `u64 as f64` conversion -/

theorem u64_as_f64_exact (n : Nat) (h : n ≤ 9007199254740992) : u64_as_f64 n = n := by
  by_cases h' : n < 9007199254740992
  · rw [u64_as_f64, if_pos h']
  · have hn : n = 9007199254740992 := by omega
    subst hn
    decide

/-- C1 counterexample: the fully valid request `exampleBody` declares size
`9007199254740993 = 2^53 + 1`, is accepted, and the handler persists `9007199254740992`
— the submitted size does not survive the `u64 as f64` conversion exactly. -/
theorem size_precision_counterexample :
    (post_backup exampleBody .success).2.1.map StoredBackup.size = some 9007199254740992
      ∧ exampleBody.size = 9007199254740993 := by
  constructor
  · decide
  · rfl

/-- C1 (amended): the persisted size is the value of `size as f64` (round to nearest,
ties to even); it equals the submitted size exactly whenever the size is at most
`2^53`, and may lose precision above that. -/
theorem size_persisted_as_f64 (body : BackupRequest) (db : DbResult) (row : StoredBackup)
    (h : (post_backup body db).2.1 = some row) :
    row.size = u64_as_f64 body.size
      ∧ (body.size ≤ 9007199254740992 → row.size = body.size) := by
  rcases post_backup_some body db row h with ⟨_, _, _, _, hr⟩
  subst hr
  exact ⟨rfl, fun hle => u64_as_f64_exact body.size hle⟩

/-- C1 witness: a request with a small size (1000 bytes) persists it exactly. -/
theorem size_persisted_as_f64_witness :
    (storedRow exampleBodySmall).size = u64_as_f64 exampleBodySmall.size
      ∧ (exampleBodySmall.size ≤ 9007199254740992 →
          (storedRow exampleBodySmall).size = exampleBodySmall.size) :=
  size_persisted_as_f64 exampleBodySmall .success (storedRow exampleBodySmall) (by decide)

/-! ## C2: the digest is invariant under permutation of the input collection -/

/-- C2: for collections of records with pairwise distinct identifiers, permuting the
input collection never changes `compute_backup_checksum`: the function sorts the
projected metadata by identifier before serializing, so the digest depends only on the
records' values. -/
theorem checksum_permutation_invariant (l₁ l₂ : List ArtifactResponse)
    (hperm : l₁.Perm l₂)
    (hdist : (l₁.map ArtifactResponse.id).Pairwise (· ≠ ·)) :
    compute_backup_checksum l₁ = compute_backup_checksum l₂ := by
  unfold compute_backup_checksum
  have hsort :
      insertionSortB (fun a b => strLe a.id b.id) (l₁.map ArtifactMetadata.fromResponse)
        = insertionSortB (fun a b => strLe a.id b.id)
            (l₂.map ArtifactMetadata.fromResponse) := by
    have hperm' := hperm.map ArtifactMetadata.fromResponse
    have hd' : (l₁.map ArtifactMetadata.fromResponse).Pairwise
        (fun a b => strVals a.id ≠ strVals b.id) := by
      rw [List.pairwise_map]
      refine (List.pairwise_map.mp hdist).imp ?_
      intro a b hab hvals
      exact hab (strVals_inj _ _ hvals)
    exact insertionSortB_eq_of_perm (fun m : ArtifactMetadata => strVals m.id) _ _
      hperm' hd'
  rw [hsort]

/-- A minimal artifact record with identifier `a`. -/
def artA : ArtifactResponse :=
  { id := "a", title := "", summary := "", description := none, url := "",
    files := [], links := [], people := [], identities := [],
    from_year := 0, to_year := none, decades := [], collections := [] }

/-- A minimal artifact record with identifier `b`. -/
def artB : ArtifactResponse := { artA with id := "b" }

/-- C2 witness: swapping two concrete records leaves the digest unchanged. -/
theorem checksum_permutation_invariant_witness :
    compute_backup_checksum [artA, artB] = compute_backup_checksum [artB, artA] :=
  checksum_permutation_invariant [artA, artB] [artB, artA]
    (List.Perm.swap artB artA []) (by decide)

/-! ## C9: the pagination loop -/

/-- The items contributed by one request (empty if the request failed). -/
def pageItems (upstream : Upstream) (req : PageRequest) : List ArtifactResponse :=
  match upstream req with
  | .ok page => page.items
  | .error _ => []

/-- Request `r₂` follows `r₁`: the response to `r₁` carried a continuation cursor and
`r₂` re-issues exactly that cursor with the fixed limit. -/
def ChainedReq (upstream : Upstream) (r₁ r₂ : PageRequest) : Prop :=
  ∃ page, upstream r₁ = .ok page
    ∧ ∃ c, page.next_cursor = some c ∧ r₂ = ⟨ARTIFACTS_PAGE_SIZE, some c⟩

theorem fetch_all_go_spec (upstream : Upstream) :
    ∀ (fuel : Nat) (cursor : Option String) (acc : List ArtifactResponse)
      (trace : List PageRequest) (res : Except FetchError (List ArtifactResponse)),
      fetch_all_go upstream fuel cursor acc = (trace, some res) →
      trace.head? = some ⟨ARTIFACTS_PAGE_SIZE, cursor⟩
      ∧ trace.Chain' (ChainedReq upstream)
      ∧ (∀ l, res = .ok l →
          l = acc ++ (trace.map (pageItems upstream)).flatten
          ∧ ∃ req page, trace.getLast? = some req ∧ upstream req = .ok page
              ∧ page.next_cursor = none)
      ∧ (∀ e, res = .error e →
          (∃ req, trace.getLast? = some req ∧ upstream req = .error e)
          ∧ ∀ r ∈ trace.dropLast, ∃ page, upstream r = .ok page) := by
  intro fuel
  induction fuel with
  | zero =>
    intro cursor acc trace res h
    simp [fetch_all_go] at h
  | succ fuel ih =>
    intro cursor acc trace res h
    rw [fetch_all_go] at h
    have hfp : fetch_artifacts_page upstream cursor = upstream ⟨ARTIFACTS_PAGE_SIZE, cursor⟩ :=
      rfl
    rcases hu : upstream ⟨ARTIFACTS_PAGE_SIZE, cursor⟩ with e | page
    · rw [hfp, hu] at h
      simp only [Prod.mk.injEq, Option.some.injEq] at h
      obtain ⟨htr, hres⟩ := h
      subst htr
      subst hres
      refine ⟨rfl, List.chain'_singleton _, ?_, ?_⟩
      · intro l hl
        exact absurd hl (by simp)
      · intro e' he'
        obtain rfl : e = e' := by
          simpa using he'
        exact ⟨⟨_, rfl, hu⟩, by simp⟩
    · rcases hn : page.next_cursor with _ | c
      · rw [hfp, hu] at h
        simp only [hn, Prod.mk.injEq, Option.some.injEq] at h
        obtain ⟨htr, hres⟩ := h
        subst htr
        subst hres
        refine ⟨rfl, List.chain'_singleton _, ?_, ?_⟩
        · intro l hl
          obtain rfl : acc ++ page.items = l := by simpa using hl
          refine ⟨?_, _, page, rfl, hu, hn⟩
          simp [pageItems, hu]
        · intro e' he'
          exact absurd he' (by simp)
      · rw [hfp, hu] at h
        simp only [hn] at h
        rcases hgo : fetch_all_go upstream fuel (some c) (acc ++ page.items) with ⟨tr, ores⟩
        rw [hgo] at h
        simp only [Prod.mk.injEq] at h
        obtain ⟨htr, hres⟩ := h
        subst htr
        rcases ores with _ | res'
        · exact absurd hres (by simp)
        · obtain rfl : res' = res := by simpa using hres
          obtain ⟨ihh, ihc, ihok, iherr⟩ := ih (some c) (acc ++ page.items) tr res' hgo
          rcases tr with _ | ⟨b, tl⟩
          · exact absurd ihh (by simp)
          · obtain rfl : b = ⟨ARTIFACTS_PAGE_SIZE, some c⟩ := by simpa using ihh
            refine ⟨rfl, ?_, ?_, ?_⟩
            · exact List.chain'_cons.mpr ⟨⟨page, hu, c, hn, rfl⟩, ihc⟩
            · intro l hl
              obtain ⟨hlv, req, p, hlast, hup, hpn⟩ := ihok l hl
              refine ⟨?_, req, p, ?_, hup, hpn⟩
              · rw [hlv]
                simp [pageItems, hu]
              · rwa [List.getLast?_cons_cons]
            · intro e' he'
              obtain ⟨⟨req, hlast, hup⟩, hall⟩ := iherr e' he'
              refine ⟨⟨req, ?_, hup⟩, ?_⟩
              · rwa [List.getLast?_cons_cons]
              · intro r hr
                rw [List.dropLast_cons₂] at hr
                rcases List.mem_cons.mp hr with rfl | hr
                · exact ⟨page, hu⟩
                · exact hall r hr

/-- C9: `fetch_all_artifacts` issues the first request with no cursor and the fixed
limit 50; successive requests re-issue each returned `next_cursor`; on success the
result is the concatenation of all page items in arrival order and the last response
omitted the cursor; on any failed request the loop stops at once with that error,
every earlier request having succeeded (no retry).  The loop is modelled with a fuel
bound; the properties hold whenever the loop terminates within the fuel. -/
theorem fetch_all_artifacts_spec (upstream : Upstream) (fuel : Nat)
    (trace : List PageRequest) (res : Except FetchError (List ArtifactResponse))
    (h : fetch_all_artifacts upstream fuel = (trace, some res)) :
    trace.head? = some ⟨ARTIFACTS_PAGE_SIZE, none⟩
    ∧ trace.Chain' (ChainedReq upstream)
    ∧ (∀ l, res = .ok l →
        l = (trace.map (pageItems upstream)).flatten
        ∧ ∃ req page, trace.getLast? = some req ∧ upstream req = .ok page
            ∧ page.next_cursor = none)
    ∧ (∀ e, res = .error e →
        (∃ req, trace.getLast? = some req ∧ upstream req = .error e)
        ∧ ∀ r ∈ trace.dropLast, ∃ page, upstream r = .ok page) := by
  have hspec := fetch_all_go_spec upstream fuel none [] trace res h
  simpa using hspec

/-- A concrete two-page upstream: the first request returns one item and a cursor,
the second returns one item and no cursor. -/
def exampleUpstream : Upstream := fun req =>
  match req.cursor with
  | none => .ok { items := [artA], next_cursor := some "c1" }
  | some c =>
    if c = "c1" then .ok { items := [artB], next_cursor := none }
    else .error "unknown cursor"

/-- C9 witness: on the concrete two-page upstream the issued requests chain through
the returned cursor. -/
theorem fetch_all_artifacts_spec_witness :
    ([⟨ARTIFACTS_PAGE_SIZE, none⟩, ⟨ARTIFACTS_PAGE_SIZE, some "c1"⟩] :
        List PageRequest).Chain' (ChainedReq exampleUpstream) :=
  (fetch_all_artifacts_spec exampleUpstream 2
    [⟨ARTIFACTS_PAGE_SIZE, none⟩, ⟨ARTIFACTS_PAGE_SIZE, some "c1"⟩]
    (.ok [artA, artB]) (by decide)).2.1

/-! ## C10: the serialization error branch is unreachable for well-formed input -/

/-- The range invariant carried by the Rust types: `from_year`, `to_year` and each
decade are `u32` values. -/
def ArtifactResponse.wf (r : ArtifactResponse) : Bool :=
  decide (r.from_year < 4294967296)
    && (match r.to_year with
        | none => true
        | some y => decide (y < 4294967296))
    && r.decades.all (fun d => decide (d < 4294967296))

theorem numsOkList_jsonListOf (l : List Json) :
    JsonList.numsOk (jsonListOf l) = l.all Json.numsOk := by
  induction l with
  | nil => rfl
  | cons j js ih => simp [jsonListOf, JsonList.numsOk, ih]

theorem numsOkMembers_jsonMembersOf (l : List (String × Json)) :
    JsonMembers.numsOk (jsonMembersOf l) = l.all (fun kv => Json.numsOk kv.2) := by
  induction l with
  | nil => rfl
  | cons kv kvs ih =>
    obtain ⟨k, v⟩ := kv
    simp [jsonMembersOf, JsonMembers.numsOk, ih]

theorem numsOk_jsonOfOptionStr (o : Option String) : (jsonOfOptionStr o).numsOk = true := by
  cases o <;> rfl

theorem numsOk_jsonOfStrList (l : List String) : (jsonOfStrList l).numsOk = true := by
  show JsonList.numsOk (jsonListOf (l.map Json.str)) = true
  rw [numsOkList_jsonListOf, List.all_eq_true]
  intro j hj
  rw [List.mem_map] at hj
  obtain ⟨s, _, rfl⟩ := hj
  rfl

theorem numsOk_jsonOfNatList (l : List Nat) (h : ∀ d ∈ l, d < 9007199254740992) :
    (jsonOfNatList l).numsOk = true := by
  show JsonList.numsOk (jsonListOf (l.map Json.num)) = true
  rw [numsOkList_jsonListOf, List.all_eq_true]
  intro j hj
  rw [List.mem_map] at hj
  obtain ⟨d, hd, rfl⟩ := hj
  simpa [Json.numsOk] using h d hd

theorem numsOk_fileToJson (f : FileMetadata) : (FileMetadata.toJson f).numsOk = true := by
  show JsonMembers.numsOk (jsonMembersOf f.fields) = true
  rw [numsOkMembers_jsonMembersOf]
  simp [FileMetadata.fields, Json.numsOk, numsOk_jsonOfOptionStr]

theorem numsOk_linkToJson (l : LinkMetadata) : (LinkMetadata.toJson l).numsOk = true := by
  show JsonMembers.numsOk (jsonMembersOf l.fields) = true
  rw [numsOkMembers_jsonMembersOf]
  simp [LinkMetadata.fields, Json.numsOk]

theorem numsOk_metaToJson (m : ArtifactMetadata)
    (hfy : m.from_year < 9007199254740992)
    (hty : ∀ y, m.to_year = some y → y < 9007199254740992)
    (hdec : ∀ d ∈ m.decades, d < 9007199254740992) :
    (ArtifactMetadata.toJson m).numsOk = true := by
  show JsonMembers.numsOk (jsonMembersOf m.fields) = true
  rw [numsOkMembers_jsonMembersOf]
  simp only [ArtifactMetadata.fields, List.all_cons, List.all_nil, Bool.and_eq_true,
    Bool.and_true]
  refine ⟨rfl, rfl, rfl, rfl, numsOk_jsonOfOptionStr _, ?_, ?_, numsOk_jsonOfStrList _,
    numsOk_jsonOfStrList _, by simpa [Json.numsOk] using hfy, ?_,
    numsOk_jsonOfNatList _ hdec, numsOk_jsonOfStrList _⟩
  · show JsonList.numsOk (jsonListOf (m.files.map FileMetadata.toJson)) = true
    rw [numsOkList_jsonListOf, List.all_eq_true]
    intro j hj
    rw [List.mem_map] at hj
    obtain ⟨f, _, rfl⟩ := hj
    exact numsOk_fileToJson f
  · show JsonList.numsOk (jsonListOf (m.links.map LinkMetadata.toJson)) = true
    rw [numsOkList_jsonListOf, List.all_eq_true]
    intro j hj
    rw [List.mem_map] at hj
    obtain ⟨lk, _, rfl⟩ := hj
    exact numsOk_linkToJson lk
  · cases hy : m.to_year with
    | none => rfl
    | some y => simpa [jsonOfOptionNat, Json.numsOk] using hty y hy

/-- C10: for every collection of well-formed records (numeric fields in `u32` range,
as guaranteed by the Rust types), `compute_backup_checksum` never takes the
serialization-error branch: the projected metadata contains only strings, booleans,
optional values and 32-bit unsigned integers, all representable in the canonical
form, so the function always returns a digest. -/
theorem compute_ok_of_numsOk (j : Json) (h : j.numsOk = true) :
    compute_canonicalized_checksum j = .ok (hexEncode (sha256 j.ser)) := by
  unfold compute_canonicalized_checksum to_vec
  rw [if_pos h]
  rfl

theorem numsOk_of_wf (rs : List ArtifactResponse) (hwf : ∀ r ∈ rs, r.wf = true) :
    Json.numsOk (.arr (jsonListOf
      ((insertionSortB (fun a b => strLe a.id b.id)
          (rs.map ArtifactMetadata.fromResponse)).map ArtifactMetadata.toJson))) = true := by
  show JsonList.numsOk (jsonListOf _) = true
  rw [numsOkList_jsonListOf, List.all_eq_true]
  intro j hj
  rw [List.mem_map] at hj
  obtain ⟨m, hm, rfl⟩ := hj
  have hm' : m ∈ rs.map ArtifactMetadata.fromResponse :=
    (perm_insertionSortB _ _).mem_iff.mp hm
  rw [List.mem_map] at hm'
  obtain ⟨r, hr, rfl⟩ := hm'
  have hw := hwf r hr
  simp only [ArtifactResponse.wf, Bool.and_eq_true, decide_eq_true_eq,
    List.all_eq_true] at hw
  refine numsOk_metaToJson _ (by show r.from_year < 9007199254740992; omega) ?_ ?_
  · intro y hy
    have hy' : r.to_year = some y := hy
    have hmatch := hw.1.2
    rw [hy'] at hmatch
    simp only [decide_eq_true_eq] at hmatch
    omega
  · intro d hd
    have hd' : d ∈ r.decades := hd
    have := hw.2 d hd'
    omega

theorem serialization_total (rs : List ArtifactResponse)
    (hwf : ∀ r ∈ rs, r.wf = true) :
    ∃ digest, compute_backup_checksum rs = .ok digest :=
  ⟨_, compute_ok_of_numsOk _ (numsOk_of_wf rs hwf)⟩

/-- C10 witness: a concrete record collection serializes successfully. -/
theorem serialization_total_witness :
    ∃ digest, compute_backup_checksum [artA] = .ok digest :=
  serialization_total [artA] (by decide)

/-! ## C3: the reference computation

The definitions below follow the words of the spec's §4.2/§4.3 algorithm: project each
record into the canonical metadata shape; sort ascending by identifier using byte-wise
string comparison; serialize with RFC 8785 (object keys in the order given by their
UTF-16 code unit sequences — written out literally below, since every key is a fixed
ASCII field name — canonical number form, no whitespace, UTF-8 bytes); hash with
SHA-256; hex-encode lowercase.  Unlike `compute_backup_checksum`, which relies on the
canonicalizer to sort each object's members at serialization time, the reference
emits every object with its keys already in canonical order. -/

/-- The spec's §4.2 projection: identifier, canonical URL, title, summary,
description, files (name, filename, media type, hash, hash algorithm, URL, language
tag, hidden flag), links (name, URL), people, identities, from-year, to-year,
decades, collections. -/
def referenceProject (r : ArtifactResponse) : ArtifactMetadata :=
  { id := r.id
    url := r.url
    title := r.title
    summary := r.summary
    description := r.description
    files := r.files.map fun f =>
      { name := f.name, filename := f.filename, media_type := f.media_type,
        hash := f.hash, hash_algorithm := f.hash_algorithm, url := f.url,
        lang := f.lang, hidden := f.hidden }
    links := r.links.map fun l => { name := l.name, url := l.url }
    people := r.people
    identities := r.identities
    from_year := r.from_year
    to_year := r.to_year
    decades := r.decades
    collections := r.collections }

def boolBytes : Bool → List Nat
  | true => utf8Encode "true"
  | false => utf8Encode "false"

/-- Comma-join serialized elements. -/
def refJoin : List (List Nat) → List Nat
  | [] => []
  | [x] => x
  | x :: rest => x ++ [44] ++ refJoin rest

def refOptStrBytes : Option String → List Nat
  | none => utf8Encode "null"
  | some s => jstrBytes s

def refOptNatBytes : Option Nat → List Nat
  | none => utf8Encode "null"
  | some n => natBytes n

def refStrArrBytes (l : List String) : List Nat := [91] ++ refJoin (l.map jstrBytes) ++ [93]

def refNatArrBytes (l : List Nat) : List Nat := [91] ++ refJoin (l.map natBytes) ++ [93]

/-- A file object with its keys in canonical (UTF-16) order. -/
def refFileBytes (f : FileMetadata) : List Nat :=
  [123] ++ jstrBytes "filename" ++ [58] ++ jstrBytes f.filename
    ++ [44] ++ jstrBytes "hash" ++ [58] ++ jstrBytes f.hash
    ++ [44] ++ jstrBytes "hash_algorithm" ++ [58] ++ jstrBytes f.hash_algorithm
    ++ [44] ++ jstrBytes "hidden" ++ [58] ++ boolBytes f.hidden
    ++ [44] ++ jstrBytes "lang" ++ [58] ++ refOptStrBytes f.lang
    ++ [44] ++ jstrBytes "media_type" ++ [58] ++ refOptStrBytes f.media_type
    ++ [44] ++ jstrBytes "name" ++ [58] ++ jstrBytes f.name
    ++ [44] ++ jstrBytes "url" ++ [58] ++ jstrBytes f.url
    ++ [125]

/-- A link object with its keys in canonical (UTF-16) order. -/
def refLinkBytes (l : LinkMetadata) : List Nat :=
  [123] ++ jstrBytes "name" ++ [58] ++ jstrBytes l.name
    ++ [44] ++ jstrBytes "url" ++ [58] ++ jstrBytes l.url
    ++ [125]

/-- An artifact object with its keys in canonical (UTF-16) order. -/
def refArtifactBytes (m : ArtifactMetadata) : List Nat :=
  [123] ++ jstrBytes "collections" ++ [58] ++ refStrArrBytes m.collections
    ++ [44] ++ jstrBytes "decades" ++ [58] ++ refNatArrBytes m.decades
    ++ [44] ++ jstrBytes "description" ++ [58] ++ refOptStrBytes m.description
    ++ [44] ++ jstrBytes "files" ++ [58]
      ++ ([91] ++ refJoin (m.files.map refFileBytes) ++ [93])
    ++ [44] ++ jstrBytes "from_year" ++ [58] ++ natBytes m.from_year
    ++ [44] ++ jstrBytes "id" ++ [58] ++ jstrBytes m.id
    ++ [44] ++ jstrBytes "identities" ++ [58] ++ refStrArrBytes m.identities
    ++ [44] ++ jstrBytes "links" ++ [58]
      ++ ([91] ++ refJoin (m.links.map refLinkBytes) ++ [93])
    ++ [44] ++ jstrBytes "people" ++ [58] ++ refStrArrBytes m.people
    ++ [44] ++ jstrBytes "summary" ++ [58] ++ jstrBytes m.summary
    ++ [44] ++ jstrBytes "title" ++ [58] ++ jstrBytes m.title
    ++ [44] ++ jstrBytes "to_year" ++ [58] ++ refOptNatBytes m.to_year
    ++ [44] ++ jstrBytes "url" ++ [58] ++ jstrBytes m.url
    ++ [125]

/-- Every numeric value of the record is representable in the canonical number form. -/
def refRepresentable (m : ArtifactMetadata) : Bool :=
  decide (m.from_year < 9007199254740992)
    && (match m.to_year with
        | none => true
        | some y => decide (y < 9007199254740992))
    && m.decades.all (fun d => decide (d < 9007199254740992))

/-- The spec's §4.3 reference computation: project, sort ascending by identifier
(byte-wise string comparison, a stable total order), serialize the sorted sequence
per RFC 8785, SHA-256 the canonical bytes and return the lowercase hex digest.
Fails only if some value cannot be represented in the canonical form. -/
def referenceSorted (rs : List ArtifactResponse) : List ArtifactMetadata :=
  insertionSortB (fun a b => strLe a.id b.id) (rs.map referenceProject)

def referenceChecksum (rs : List ArtifactResponse) : Except String String :=
  if (referenceSorted rs).all refRepresentable then
    .ok (hexEncode (sha256
      ([91] ++ refJoin ((referenceSorted rs).map refArtifactBytes) ++ [93])))
  else .error "SerializationError"

/-! ### The serializer agrees with the reference emission, value by value -/

theorem ser_str (s : String) : (Json.str s).ser = jstrBytes s := rfl

theorem ser_bool (b : Bool) : (Json.bool b).ser = boolBytes b := by
  cases b <;> rfl

theorem ser_num (n : Nat) : (Json.num n).ser = natBytes n := rfl

theorem ser_optStr (o : Option String) : (jsonOfOptionStr o).ser = refOptStrBytes o := by
  cases o <;> rfl

theorem ser_optNat (o : Option Nat) : (jsonOfOptionNat o).ser = refOptNatBytes o := by
  cases o <;> rfl

theorem ser_arr (jl : JsonList) :
    (Json.arr jl).ser = [91] ++ JsonList.serElems jl ++ [93] := rfl

theorem serElems_eq_refJoin {α : Type} (f : α → Json) (g : α → List Nat)
    (hfg : ∀ x, (f x).ser = g x) (l : List α) :
    JsonList.serElems (jsonListOf (l.map f)) = refJoin (l.map g) := by
  induction l with
  | nil => rfl
  | cons x xs ih =>
    cases xs with
    | nil =>
      show JsonList.serElems (.cons (f x) .nil) = refJoin [g x]
      rw [show JsonList.serElems (.cons (f x) .nil) = (f x).ser from rfl]
      rw [hfg x]
      rfl
    | cons y ys =>
      have h2 : JsonList.serElems (jsonListOf ((x :: y :: ys).map f))
          = (f x).ser ++ [44] ++ JsonList.serElems (jsonListOf ((y :: ys).map f)) := rfl
      rw [h2, hfg x, ih]
      rfl

theorem ser_strList (l : List String) : (jsonOfStrList l).ser = refStrArrBytes l := by
  show [91] ++ JsonList.serElems (jsonListOf (l.map Json.str)) ++ [93] = _
  rw [serElems_eq_refJoin Json.str jstrBytes (fun s => rfl) l]
  rfl

theorem ser_natList (l : List Nat) : (jsonOfNatList l).ser = refNatArrBytes l := by
  show [91] ++ JsonList.serElems (jsonListOf (l.map Json.num)) ++ [93] = _
  rw [serElems_eq_refJoin Json.num natBytes (fun n => rfl) l]
  rfl

/-- Sorting the eight file-object keys (given in declaration order) by their UTF-16
code unit sequences, for arbitrary member values. -/
theorem sortPairs_file (v1 v2 v3 v4 v5 v6 v7 v8 : List Nat) :
    sortPairs [("name", v1), ("filename", v2), ("media_type", v3), ("hash", v4),
      ("hash_algorithm", v5), ("url", v6), ("lang", v7), ("hidden", v8)]
      = [("filename", v2), ("hash", v4), ("hash_algorithm", v5), ("hidden", v8),
         ("lang", v7), ("media_type", v3), ("name", v1), ("url", v6)] := rfl

/-- Sorting the two link-object keys. -/
theorem sortPairs_link (v1 v2 : List Nat) :
    sortPairs [("name", v1), ("url", v2)] = [("name", v1), ("url", v2)] := rfl

/-- Sorting the thirteen artifact-object keys (given in declaration order) by their
UTF-16 code unit sequences, for arbitrary member values. -/
theorem sortPairs_artifact (v1 v2 v3 v4 v5 v6 v7 v8 v9 v10 v11 v12 v13 : List Nat) :
    sortPairs [("id", v1), ("url", v2), ("title", v3), ("summary", v4),
      ("description", v5), ("files", v6), ("links", v7), ("people", v8),
      ("identities", v9), ("from_year", v10), ("to_year", v11), ("decades", v12),
      ("collections", v13)]
      = [("collections", v13), ("decades", v12), ("description", v5), ("files", v6),
         ("from_year", v10), ("id", v1), ("identities", v9), ("links", v7),
         ("people", v8), ("summary", v4), ("title", v3), ("to_year", v11),
         ("url", v2)] := rfl

theorem ser_file (f : FileMetadata) : (FileMetadata.toJson f).ser = refFileBytes f := by
  have hr : JsonMembers.render (jsonMembersOf f.fields)
      = [("name", (Json.str f.name).ser), ("filename", (Json.str f.filename).ser),
         ("media_type", (jsonOfOptionStr f.media_type).ser),
         ("hash", (Json.str f.hash).ser),
         ("hash_algorithm", (Json.str f.hash_algorithm).ser),
         ("url", (Json.str f.url).ser), ("lang", (jsonOfOptionStr f.lang).ser),
         ("hidden", (Json.bool f.hidden).ser)] := rfl
  show [123] ++ emitMembers (sortPairs (JsonMembers.render (jsonMembersOf f.fields)))
      ++ [125] = refFileBytes f
  rw [hr, sortPairs_file]
  simp only [emitMembers, emitMember, ser_str, ser_bool, ser_optStr, refFileBytes,
    List.append_assoc]

theorem ser_link (l : LinkMetadata) : (LinkMetadata.toJson l).ser = refLinkBytes l := by
  have hr : JsonMembers.render (jsonMembersOf l.fields)
      = [("name", (Json.str l.name).ser), ("url", (Json.str l.url).ser)] := rfl
  show [123] ++ emitMembers (sortPairs (JsonMembers.render (jsonMembersOf l.fields)))
      ++ [125] = refLinkBytes l
  rw [hr, sortPairs_link]
  simp only [emitMembers, emitMember, ser_str, refLinkBytes, List.append_assoc]

theorem ser_artifact (m : ArtifactMetadata) :
    (ArtifactMetadata.toJson m).ser = refArtifactBytes m := by
  have hr : JsonMembers.render (jsonMembersOf m.fields)
      = [("id", (Json.str m.id).ser), ("url", (Json.str m.url).ser),
         ("title", (Json.str m.title).ser), ("summary", (Json.str m.summary).ser),
         ("description", (jsonOfOptionStr m.description).ser),
         ("files", (Json.arr (jsonListOf (m.files.map FileMetadata.toJson))).ser),
         ("links", (Json.arr (jsonListOf (m.links.map LinkMetadata.toJson))).ser),
         ("people", (jsonOfStrList m.people).ser),
         ("identities", (jsonOfStrList m.identities).ser),
         ("from_year", (Json.num m.from_year).ser),
         ("to_year", (jsonOfOptionNat m.to_year).ser),
         ("decades", (jsonOfNatList m.decades).ser),
         ("collections", (jsonOfStrList m.collections).ser)] := rfl
  show [123] ++ emitMembers (sortPairs (JsonMembers.render (jsonMembersOf m.fields)))
      ++ [125] = refArtifactBytes m
  rw [hr, sortPairs_artifact]
  rw [show (Json.arr (jsonListOf (m.files.map FileMetadata.toJson))).ser
      = [91] ++ JsonList.serElems (jsonListOf (m.files.map FileMetadata.toJson)) ++ [93]
    from rfl]
  rw [show (Json.arr (jsonListOf (m.links.map LinkMetadata.toJson))).ser
      = [91] ++ JsonList.serElems (jsonListOf (m.links.map LinkMetadata.toJson)) ++ [93]
    from rfl]
  rw [serElems_eq_refJoin FileMetadata.toJson refFileBytes ser_file m.files]
  rw [serElems_eq_refJoin LinkMetadata.toJson refLinkBytes ser_link m.links]
  simp only [emitMembers, emitMember, ser_str, ser_num, ser_optStr, ser_optNat,
    ser_strList, ser_natList, refArtifactBytes, List.append_assoc]

theorem refRepresentable_of_wf (r : ArtifactResponse) (h : r.wf = true) :
    refRepresentable (ArtifactMetadata.fromResponse r) = true := by
  simp only [ArtifactResponse.wf, Bool.and_eq_true, decide_eq_true_eq,
    List.all_eq_true] at h
  simp only [refRepresentable, Bool.and_eq_true, decide_eq_true_eq, List.all_eq_true]
  refine ⟨⟨by show r.from_year < 9007199254740992; omega, ?_⟩, ?_⟩
  · show (match r.to_year with
      | none => true
      | some y => decide (y < 9007199254740992)) = true
    rcases hty : r.to_year with _ | y
    · rfl
    · have hmatch := h.1.2
      rw [hty] at hmatch
      simp only [decide_eq_true_eq] at hmatch
      show decide (y < 9007199254740992) = true
      simp only [decide_eq_true_eq]
      omega
  · intro d hd
    have hd' : d ∈ r.decades := hd
    have := h.2 d hd'
    omega

/-- C3: for every well-formed record collection, `compute_backup_checksum` returns
exactly the digest of the reference computation: project, sort by identifier, RFC
8785 canonical serialization (keys UTF-16-sorted, canonical numbers, no whitespace,
UTF-8), SHA-256, lowercase hex. -/
theorem compute_matches_reference (rs : List ArtifactResponse)
    (hwf : ∀ r ∈ rs, r.wf = true) :
    ∃ digest, compute_backup_checksum rs = .ok digest
      ∧ referenceChecksum rs = .ok digest := by
  have hsorted : referenceSorted rs
      = insertionSortB (fun a b => strLe a.id b.id)
          (rs.map ArtifactMetadata.fromResponse) := rfl
  refine ⟨_, compute_ok_of_numsOk _ (numsOk_of_wf rs hwf), ?_⟩
  have hrep : (referenceSorted rs).all refRepresentable = true := by
    rw [List.all_eq_true]
    intro m hm
    rw [hsorted] at hm
    have hm' : m ∈ rs.map ArtifactMetadata.fromResponse :=
      (perm_insertionSortB _ _).mem_iff.mp hm
    rw [List.mem_map] at hm'
    obtain ⟨r, hr, rfl⟩ := hm'
    exact refRepresentable_of_wf r (hwf r hr)
  unfold referenceChecksum
  rw [if_pos hrep, hsorted]
  rw [show [91] ++ refJoin ((insertionSortB (fun a b => strLe a.id b.id)
        (rs.map ArtifactMetadata.fromResponse)).map refArtifactBytes) ++ [93]
      = (Json.arr (jsonListOf ((insertionSortB (fun a b => strLe a.id b.id)
          (rs.map ArtifactMetadata.fromResponse)).map ArtifactMetadata.toJson))).ser
    from by
      rw [ser_arr, serElems_eq_refJoin ArtifactMetadata.toJson refArtifactBytes
        ser_artifact]]

/-- C3 witness: the two computations agree on a concrete record collection. -/
theorem compute_matches_reference_witness :
    ∃ digest, compute_backup_checksum [artA] = .ok digest
      ∧ referenceChecksum [artA] = .ok digest :=
  compute_matches_reference [artA] (by decide)

/-! ## C4: order of the `files` and `links` collections -/

def fileX : FileResponse :=
  { name := "x", filename := "x", media_type := none, hash := "aa",
    hash_algorithm := "sha256", url := "", lang := none, hidden := false }

def fileY : FileResponse := { fileX with name := "y", filename := "y", hash := "bb" }

/-- A record carrying two files in one order. -/
def artFilesXY : ArtifactResponse := { artA with files := [fileX, fileY] }

/-- The same record with its two files swapped. -/
def artFilesYX : ArtifactResponse := { artA with files := [fileY, fileX] }

/-- C4 counterexample: swapping the two elements of a record's `files` collection
changes the digest — RFC 8785 canonicalizes object member order but preserves array
element order, so the `files` (and `links`) arrays are order-significant. -/
theorem files_order_counterexample :
    compute_backup_checksum [artFilesXY] ≠ compute_backup_checksum [artFilesYX] := by
  decide

theorem render_jsonMembersOf (l : List (String × Json)) :
    JsonMembers.render (jsonMembersOf l) = l.map (fun kv => (kv.1, kv.2.ser)) := by
  induction l with
  | nil => rfl
  | cons kv kvs ih =>
    obtain ⟨k, v⟩ := kv
    show (k, v.ser) :: JsonMembers.render (jsonMembersOf kvs) = _
    rw [ih]
    rfl

theorem obj_ser_eq (l : List (String × Json)) :
    (Json.obj (jsonMembersOf l)).ser
      = [123] ++ emitMembers (sortPairs (l.map (fun kv => (kv.1, kv.2.ser)))) ++ [125] := by
  show [123] ++ emitMembers (sortPairs (JsonMembers.render (jsonMembersOf l))) ++ [125] = _
  rw [render_jsonMembersOf]

/-- C4 (amended): what is order-irrelevant is the in-memory assembly order of an
object's members — serializing an artifact's field set in any permuted order yields
byte-identical canonical output, because the canonicalizer sorts members by key.  The
`files` and `links` arrays, by contrast, are serialized in their given order, so
permuting them changes the canonical form (see the counterexample). -/
theorem object_member_order_irrelevant (m : ArtifactMetadata)
    (kvs : List (String × Json)) (hperm : kvs.Perm (ArtifactMetadata.fields m)) :
    (Json.obj (jsonMembersOf kvs)).ser = (ArtifactMetadata.toJson m).ser := by
  rw [show ArtifactMetadata.toJson m = Json.obj (jsonMembersOf (ArtifactMetadata.fields m))
    from rfl]
  rw [obj_ser_eq, obj_ser_eq]
  have hperm' := hperm.map (fun kv : String × Json => (kv.1, kv.2.ser))
  have hd : ((ArtifactMetadata.fields m).map
      (fun kv : String × Json => (kv.1, kv.2.ser))).Pairwise
      (fun p q => utf16Units p.1 ≠ utf16Units q.1) := by
    rw [List.pairwise_map]
    have hkeys : ((ArtifactMetadata.fields m).map Prod.fst).Pairwise
        (fun a b => utf16Units a ≠ utf16Units b) := by
      rw [show (ArtifactMetadata.fields m).map Prod.fst
          = ["id", "url", "title", "summary", "description", "files", "links",
             "people", "identities", "from_year", "to_year", "decades", "collections"]
        from rfl]
      decide
    rw [List.pairwise_map] at hkeys
    exact hkeys
  have hsort := (insertionSortB_eq_of_perm
    (fun p : String × List Nat => utf16Units p.1) _ _ hperm'.symm hd).symm
  have hsort' : sortPairs (kvs.map (fun kv : String × Json => (kv.1, kv.2.ser)))
      = sortPairs ((ArtifactMetadata.fields m).map
          (fun kv : String × Json => (kv.1, kv.2.ser))) := hsort
  rw [hsort']

/-- C4 witness: assembling the artifact's fields in reverse order serializes to the
same canonical bytes. -/
theorem object_member_order_irrelevant_witness :
    (Json.obj (jsonMembersOf
        ((ArtifactMetadata.fields (ArtifactMetadata.fromResponse artA)).reverse))).ser
      = (ArtifactMetadata.toJson (ArtifactMetadata.fromResponse artA)).ser :=
  object_member_order_irrelevant (ArtifactMetadata.fromResponse artA) _
    (List.reverse_perm _)
